import Mathlib

/-!
Verification of the core of `run.py` (a DQN training script) against its
specification.  The script's real-valued computations (epsilon schedule,
Q-value targets, episode returns) are embedded exactly over `ℚ`; the
stateful loops (`evaluate`, the exploration slice of `train`, and the
replay/target-sync cadence of `train`) are embedded as explicit state
machines with ghost instrumentation fields that record observable events
without influencing the computation.
-/

namespace DQN

/-- Constant `DISCOUNT_FACTOR_GAMMA = 0.99` of `run.py`. -/
def DISCOUNT_FACTOR_GAMMA : ℚ := 99 / 100

/-- Constant `UPDATE_EVERY = 4` of `run.py`. -/
def UPDATE_EVERY : ℕ := 4

/-- Constant `BATCH_SIZE = 128` of `run.py`. -/
def BATCH_SIZE : ℕ := 128

/-- Constant `TARGET_UPDATE_EVERY = 10000` of `run.py`. -/
def TARGET_UPDATE_EVERY : ℕ := 10000

/-- Constant `TRAIN_START = 10000` of `run.py`. -/
def TRAIN_START : ℕ := 10000

/-- Constant `REPLAY_BUFFER_SIZE = 100000` of `run.py`. -/
def REPLAY_BUFFER_SIZE : ℕ := 100000

/-- Constant `EPSILON_START = 1.0` of `run.py`. -/
def EPSILON_START : ℚ := 1

/-- Constant `EPSILON_FINAL = 0.02` of `run.py`. -/
def EPSILON_FINAL : ℚ := 2 / 100

/-- Constant `EPSILON_STEPS = 100000` of `run.py`, used as the (rational)
denominator of the epsilon schedule. -/
def EPSILON_STEPS : ℚ := 100000

/-- Constant `VALIDATION_SIZE = 500` of `run.py`. -/
def VALIDATION_SIZE : ℕ := 500

/-- The function `epsilon_for_step` of `run.py`:
`max(EPSILON_FINAL, (EPSILON_FINAL - EPSILON_START) / EPSILON_STEPS * step + EPSILON_START)`. -/
def epsilon_for_step (step : ℕ) : ℚ :=
  max EPSILON_FINAL ((EPSILON_FINAL - EPSILON_START) / EPSILON_STEPS * step + EPSILON_START)

/-- Claim C2: `epsilon_for_step step` equals
`max (EPSILON_FINAL) (EPSILON_START + (EPSILON_FINAL - EPSILON_START) / EPSILON_STEPS * step)`
for every step; it starts at `EPSILON_START`, reaches `EPSILON_FINAL` at
step `EPSILON_STEPS = 100000`, is non-increasing, never drops below
`EPSILON_FINAL`, and takes the values `0.51` at step `50000` and `0.02`
at step `200000`. -/
theorem C2_epsilon_schedule :
    (∀ s : ℕ, epsilon_for_step s
        = max EPSILON_FINAL
            (EPSILON_START + (EPSILON_FINAL - EPSILON_START) / EPSILON_STEPS * s)) ∧
    epsilon_for_step 0 = EPSILON_START ∧
    epsilon_for_step 100000 = EPSILON_FINAL ∧
    (∀ a b : ℕ, a ≤ b → epsilon_for_step b ≤ epsilon_for_step a) ∧
    (∀ s : ℕ, EPSILON_FINAL ≤ epsilon_for_step s) ∧
    epsilon_for_step 50000 = 51 / 100 ∧
    epsilon_for_step 200000 = EPSILON_FINAL := by
  refine ⟨?_, ?_, ?_, ?_, ?_, ?_, ?_⟩
  · intro s
    unfold epsilon_for_step
    rw [add_comm]
  · norm_num [epsilon_for_step, EPSILON_FINAL, EPSILON_START, EPSILON_STEPS]
  · norm_num [epsilon_for_step, EPSILON_FINAL, EPSILON_START, EPSILON_STEPS]
  · intro a b hab
    unfold epsilon_for_step
    have hab' : (a : ℚ) ≤ (b : ℚ) := by exact_mod_cast hab
    refine max_le_max le_rfl ?_
    have hc : (EPSILON_FINAL - EPSILON_START) / EPSILON_STEPS ≤ 0 := by
      norm_num [EPSILON_FINAL, EPSILON_START, EPSILON_STEPS]
    nlinarith
  · intro s
    exact le_max_left _ _
  · norm_num [epsilon_for_step, EPSILON_FINAL, EPSILON_START, EPSILON_STEPS]
  · norm_num [epsilon_for_step, EPSILON_FINAL, EPSILON_START, EPSILON_STEPS]

/-- Witness for C2: the non-increasing conjunct applied at the concrete
pair `30000 ≤ 70000`. -/
theorem C2_epsilon_schedule_witness :
    epsilon_for_step 70000 ≤ epsilon_for_step 30000 :=
  C2_epsilon_schedule.2.2.2.1 30000 70000 (by norm_num)

/-- Semantics of `np.max` on a one-dimensional array of rationals (the
rows fed to it in `run.py` contain no NaN).  The value on `[]` is a junk
default; numpy raises there and `run.py` never reaches that case. -/
def npMax : List ℚ → ℚ
  | [] => 0
  | [x] => x
  | x :: y :: ys => max x (npMax (y :: ys))

/-- Semantics of `np.argmax` on a one-dimensional array: the index of the
first occurrence of the maximum (numpy documents first-occurrence
tie-breaking). -/
def np_argmax : List ℚ → ℕ
  | [] => 0
  | [_] => 0
  | x :: y :: ys => if x < npMax (y :: ys) then np_argmax (y :: ys) + 1 else 0

theorem npMax_cons (x : ℚ) (l : List ℚ) (h : l ≠ []) :
    npMax (x :: l) = max x (npMax l) := by
  cases l with
  | nil => exact absurd rfl h
  | cons y ys => rfl

/-- Specification of `np_argmax` on a nonempty list: it is a valid index,
it attains the maximum, and every earlier index holds a strictly smaller
value (first-occurrence tie-breaking). -/
theorem np_argmax_spec : ∀ l : List ℚ, l ≠ [] →
    np_argmax l < l.length ∧
    l.getD (np_argmax l) 0 = npMax l ∧
    ∀ j : ℕ, j < np_argmax l → l.getD j 0 < npMax l
  | [], h => absurd rfl h
  | [x], _ => by
      refine ⟨by simp [np_argmax], by simp [np_argmax, npMax], ?_⟩
      intro j hj
      simp [np_argmax] at hj
  | x :: y :: ys, _ => by
      obtain ⟨ih1, ih2, ih3⟩ := np_argmax_spec (y :: ys) (by simp)
      by_cases hx : x < npMax (y :: ys)
      · have harg : np_argmax (x :: y :: ys) = np_argmax (y :: ys) + 1 := by
          simp [np_argmax, hx]
        have hmax : npMax (x :: y :: ys) = npMax (y :: ys) := by
          rw [npMax_cons x (y :: ys) (by simp), max_eq_right hx.le]
        refine ⟨?_, ?_, ?_⟩
        · simpa [harg] using Nat.succ_lt_succ ih1
        · rw [harg, hmax]
          simpa using ih2
        · intro j hj
          rw [harg] at hj
          rw [hmax]
          cases j with
          | zero => simpa using hx
          | succ i =>
              have hi : i < np_argmax (y :: ys) := Nat.lt_of_succ_lt_succ hj
              simpa using ih3 i hi
      · have harg : np_argmax (x :: y :: ys) = 0 := by
          simp [np_argmax, hx]
        have hmax : npMax (x :: y :: ys) = x := by
          rw [npMax_cons x (y :: ys) (by simp), max_eq_left (not_lt.mp hx)]
        refine ⟨by simp [harg], by simp [harg, hmax], ?_⟩
        intro j hj
        rw [harg] at hj
        exact absurd hj (Nat.not_lt_zero j)

/-- The function `predict(env, model, observations)` of `run.py`.  A keras
model of `run.py` maps an observation to raw per-action values and
multiplies them elementwise by the action-mask input
(`filtered_output = multiply([output, actions_input])`); `predict` passes
`np.ones((len(observations), env.action_space.n))` as the mask. -/
def predict {Obs : Type} (n_actions : ℕ) (model : Obs → List ℚ)
    (observations : List Obs) : List (List ℚ) :=
  observations.map fun o => List.zipWith (· * ·) (model o) (List.replicate n_actions 1)

/-- The function `greedy_action(env, model, observation)` of `run.py`:
`np.argmax(predict(env, model, observations=[observation]))`, where
`np.argmax` flattens the 1-row matrix. -/
def greedy_action {Obs : Type} (n_actions : ℕ) (model : Obs → List ℚ)
    (observation : Obs) : ℕ :=
  np_argmax (predict n_actions model [observation]).flatten

/-- The function `epsilon_greedy_action(env, model, observation, epsilon)`
of `run.py`.  The randomness is passed explicitly: `rand` is the value of
`random.random()` (uniform in `[0, 1)`) and `sampled` the value
`env.action_space.sample()` would return. -/
def epsilon_greedy_action {Obs : Type} (n_actions : ℕ) (model : Obs → List ℚ)
    (observation : Obs) (epsilon rand : ℚ) (sampled : ℕ) : ℕ :=
  if rand < epsilon then sampled else greedy_action n_actions model observation

theorem ones_mask_id : ∀ l : List ℚ, List.zipWith (· * ·) l (List.replicate l.length 1) = l
  | [] => rfl
  | x :: xs => by simp [List.replicate_succ, ones_mask_id xs]

/-- Claim C8: `epsilon_greedy_action` returns the environment-sampled
action exactly when the one uniform draw is below `epsilon`; otherwise it
returns the index of the maximum of the model's per-action values on the
single observation queried through the all-ones action mask (which is a
no-op), breaking ties by lowest index. -/
theorem C8_epsilon_greedy (Obs : Type) (n_actions : ℕ) (model : Obs → List ℚ)
    (observation : Obs) (epsilon rand : ℚ) (sampled : ℕ)
    (hlen : (model observation).length = n_actions) (hpos : 0 < n_actions) :
    (rand < epsilon →
      epsilon_greedy_action n_actions model observation epsilon rand sampled = sampled) ∧
    (epsilon ≤ rand →
      epsilon_greedy_action n_actions model observation epsilon rand sampled
          = np_argmax (model observation) ∧
      np_argmax (model observation) < n_actions ∧
      (model observation).getD (np_argmax (model observation)) 0
          = npMax (model observation) ∧
      ∀ j : ℕ, j < np_argmax (model observation) →
        (model observation).getD j 0 < npMax (model observation)) := by
  have hne : model observation ≠ [] := by
    intro hnil
    rw [hnil] at hlen
    simp at hlen
    omega
  have hmask : (predict n_actions model [observation]).flatten = model observation := by
    simp only [predict, List.map_cons, List.map_nil, List.flatten_cons, List.flatten_nil,
      List.append_nil]
    rw [← hlen]
    exact ones_mask_id (model observation)
  constructor
  · intro hlt
    simp [epsilon_greedy_action, hlt]
  · intro hge
    have hnot : ¬ rand < epsilon := not_lt.mpr hge
    obtain ⟨h1, h2, h3⟩ := np_argmax_spec (model observation) hne
    refine ⟨?_, ?_, h2, h3⟩
    · simp [epsilon_greedy_action, hnot, greedy_action, hmask]
    · rw [← hlen]
      exact h1

/-- Witness for C8: on the value row `[3, 7, 7]` with a draw of `3/4`
above `epsilon = 1/2`, the greedy branch fires and selects index `1`, the
first of the two tied maxima. -/
theorem C8_epsilon_greedy_witness :
    epsilon_greedy_action 3 (fun _ : Unit => [3, 7, 7]) () (1 / 2) (3 / 4) 9 = 1 := by
  have h := (C8_epsilon_greedy Unit 3 (fun _ : Unit => [3, 7, 7]) () (1 / 2) (3 / 4) 9
    rfl (by norm_num)).2 (by norm_num)
  rw [h.1]
  rfl

/-- The function `one_hot_encode(env, action)` of `run.py`: a length
`env.action_space.n` vector with a `1` at `action` and `0` elsewhere. -/
def one_hot_encode (n_actions action : ℕ) : List ℚ :=
  (List.range n_actions).map fun i => if i = action then 1 else 0

/-- Lines 58-60 of `run.py` inside `fit_batch`:
`next_q_values = predict(env, target_model, next_observations)` followed
by the terminal-state zeroing `next_q_values[dones] = 0.0`, which
replaces every row whose `done` flag is true by a row of zeros. -/
def masked_next_q {Obs : Type} (n_actions : ℕ) (target_model : Obs → List ℚ)
    (next_observations : List Obs) (dones : List Bool) : List (List ℚ) :=
  List.zipWith (fun d row => if d then List.replicate row.length (0 : ℚ) else row)
    dones (predict n_actions target_model next_observations)

/-- Line 62 of `run.py` inside `fit_batch`:
`q_values = rewards + DISCOUNT_FACTOR_GAMMA * np.max(next_q_values, axis=1)`
computed after the terminal-state zeroing. -/
def q_values_of {Obs : Type} (n_actions : ℕ) (target_model : Obs → List ℚ)
    (rewards : List ℚ) (next_observations : List Obs) (dones : List Bool) : List ℚ :=
  List.zipWith (fun r row => r + DISCOUNT_FACTOR_GAMMA * npMax row)
    rewards (masked_next_q n_actions target_model next_observations dones)

/-- A sampled batch as unpacked on line 56 of `run.py`. -/
structure Batch (Obs : Type) where
  observations : List Obs
  actions : List ℕ
  rewards : List ℚ
  next_observations : List Obs
  dones : List Bool

/-- The regression targets `one_hot_actions * q_values[:, None]` passed
as `y` to `model.fit` on line 67 of `run.py`. -/
def masked_targets {Obs : Type} (n_actions : ℕ) (target_model : Obs → List ℚ)
    (b : Batch Obs) : List (List ℚ) :=
  List.zipWith (fun a q => (one_hot_encode n_actions a).map (· * q))
    b.actions (q_values_of n_actions target_model b.rewards b.next_observations b.dones)

/-- The function `fit_batch` of `run.py`.  `model_fit` abstracts the
keras call `model.fit(x=[observations, one_hot_actions], y=...)` together
with `history.history['loss'][0]`; a `none` loss models NaN
(`math.isnan`).  The second component of the result is the observable
diagnostic output: line 73 prints the masked targets exactly when the
loss is NaN, and the loss is returned unchanged either way. -/
def fit_batch {Obs : Type} (n_actions : ℕ) (target_model : Obs → List ℚ)
    (model_fit : List Obs → List (List ℚ) → List (List ℚ) → Option ℚ)
    (b : Batch Obs) : Option ℚ × List (List (List ℚ)) :=
  let one_hot_actions := b.actions.map (one_hot_encode n_actions)
  let y := masked_targets n_actions target_model b
  let loss := model_fit b.observations one_hot_actions y
  (loss, if loss.isNone then [y] else [])

theorem npMax_replicate_zero : ∀ n : ℕ, npMax (List.replicate n (0 : ℚ)) = 0
  | 0 => rfl
  | 1 => rfl
  | n + 2 => by
      have ih := npMax_replicate_zero (n + 1)
      simp only [List.replicate_succ] at ih ⊢
      rw [npMax_cons 0 (0 :: List.replicate n 0) (by simp), ih]
      simp

theorem q_values_all_done {Obs : Type} (n_actions : ℕ) (target_model : Obs → List ℚ) :
    ∀ (rewards : List ℚ) (next_observations : List Obs) (dones : List Bool),
      dones.length = rewards.length → next_observations.length = rewards.length →
      (∀ d ∈ dones, d = true) →
      q_values_of n_actions target_model rewards next_observations dones = rewards := by
  intro rewards
  induction rewards with
  | nil =>
      intro nobs ds _ _ _
      simp [q_values_of, masked_next_q]
  | cons r rs ih =>
      intro nobs ds hd hn hall
      cases ds with
      | nil => simp at hd
      | cons d ds' =>
          cases nobs with
          | nil => simp at hn
          | cons o os =>
              have hdt : d = true := hall d (by simp)
              simp only [q_values_of, masked_next_q, predict, List.map_cons,
                List.zipWith_cons_cons] at *
              rw [hdt]
              simp only [if_pos]
              have hrec := ih os ds' (by simpa using hd) (by simpa using hn)
                (fun x hx => hall x (by simp [hx]))
              simp only [q_values_of, masked_next_q, predict] at hrec
              rw [npMax_replicate_zero]
              simp [hrec]

theorem q_values_getD {Obs : Type} (n_actions : ℕ) (target_model : Obs → List ℚ) :
    ∀ (rewards : List ℚ) (next_observations : List Obs) (dones : List Bool) (i : ℕ),
      dones.length = rewards.length → next_observations.length = rewards.length →
      i < rewards.length →
      (q_values_of n_actions target_model rewards next_observations dones).getD i 0
        = rewards.getD i 0 + DISCOUNT_FACTOR_GAMMA *
            npMax ((masked_next_q n_actions target_model next_observations dones).getD i []) := by
  intro rewards
  induction rewards with
  | nil =>
      intro nobs ds i _ _ hi
      simp at hi
  | cons r rs ih =>
      intro nobs ds i hd hn hi
      cases ds with
      | nil => simp at hd
      | cons d ds' =>
          cases nobs with
          | nil => simp at hn
          | cons o os =>
              cases i with
              | zero =>
                  simp [q_values_of, masked_next_q, predict]
              | succ i' =>
                  have hrec := ih os ds' i' (by simpa using hd) (by simpa using hn)
                    (by simpa using Nat.lt_of_succ_lt_succ hi)
                  simp only [q_values_of, masked_next_q, predict, List.map_cons,
                    List.zipWith_cons_cons, List.getD_cons_succ] at *
                  exact hrec

/-- The concrete target model of the worked example in the spec: the two
next-observations `0` and `1` map to the raw value rows `[2, 3]` and
`[10, 10]`. -/
def exampleTM : ℕ → List ℚ := fun o => if o = 0 then [2, 3] else [10, 10]

/-- Claim C1: inside `fit_batch`, the regression target of transition `i`
is `reward i + 0.99 * max` over row `i` of the target-model prediction
with every `done` row zeroed first; for an all-done batch the target
vector equals the reward vector exactly; and on the worked example
(`done = [false, true]`, `reward = [1, 5]`, next-Q rows
`[[2, 3], [10, 10]]`) the targets are `[3.97, 5]`. -/
theorem C1_fit_batch_targets :
    (∀ (Obs : Type) (n_actions : ℕ) (target_model : Obs → List ℚ)
        (rewards : List ℚ) (next_observations : List Obs) (dones : List Bool),
      dones.length = rewards.length → next_observations.length = rewards.length →
      ((∀ i : ℕ, i < rewards.length →
          (q_values_of n_actions target_model rewards next_observations dones).getD i 0
            = rewards.getD i 0 + DISCOUNT_FACTOR_GAMMA *
                npMax ((masked_next_q n_actions target_model
                    next_observations dones).getD i [])) ∧
        ((∀ d ∈ dones, d = true) →
          q_values_of n_actions target_model rewards next_observations dones = rewards))) ∧
    q_values_of 2 exampleTM [1, 5] [0, 1] [false, true] = [397 / 100, 5] := by
  constructor
  · intro Obs n_actions target_model rewards nobs dones hd hn
    exact ⟨fun i hi => q_values_getD n_actions target_model rewards nobs dones i hd hn hi,
      fun hall => q_values_all_done n_actions target_model rewards nobs dones hd hn hall⟩
  · norm_num [q_values_of, masked_next_q, predict, exampleTM, npMax, DISCOUNT_FACTOR_GAMMA]

/-- Witness for C1: the general conjunct applied to the worked example,
at index `1` (the terminal transition, whose continuation term is zero)
and to a concrete all-done batch. -/
theorem C1_fit_batch_targets_witness :
    (q_values_of 2 exampleTM [1, 5] [0, 1] [false, true]).getD 1 0
        = (5 : ℚ) + DISCOUNT_FACTOR_GAMMA *
            npMax ((masked_next_q 2 exampleTM [0, 1] [false, true]).getD 1 []) ∧
    q_values_of 2 exampleTM [7, 8] [0, 1] [true, true] = [7, 8] := by
  constructor
  · exact
      (C1_fit_batch_targets.1 ℕ 2 exampleTM [1, 5] [0, 1] [false, true] rfl rfl).1 1
        (by norm_num)
  · exact
      (C1_fit_batch_targets.1 ℕ 2 exampleTM [7, 8] [0, 1] [true, true] rfl rfl).2
        (by decide)

/-- Claim C9: `fit_batch` reports exactly the loss produced by the
model's fit call, raising in neither case: a NaN loss (`none`) is
returned normally together with the printed masked-target diagnostic,
and a numeric loss is returned with no diagnostic. -/
theorem C9_nan_loss (Obs : Type) (n_actions : ℕ) (target_model : Obs → List ℚ)
    (model_fit : List Obs → List (List ℚ) → List (List ℚ) → Option ℚ) (b : Batch Obs) :
    (fit_batch n_actions target_model model_fit b).1
        = model_fit b.observations (b.actions.map (one_hot_encode n_actions))
            (masked_targets n_actions target_model b) ∧
    (model_fit b.observations (b.actions.map (one_hot_encode n_actions))
          (masked_targets n_actions target_model b) = none →
      fit_batch n_actions target_model model_fit b
        = (none, [masked_targets n_actions target_model b])) ∧
    (∀ l : ℚ, model_fit b.observations (b.actions.map (one_hot_encode n_actions))
          (masked_targets n_actions target_model b) = some l →
      fit_batch n_actions target_model model_fit b = (some l, [])) := by
  refine ⟨rfl, ?_, ?_⟩
  · intro hnan
    simp [fit_batch, hnan]
  · intro l hl
    simp [fit_batch, hl]

/-- Witness for C9: a fit call that reports a NaN loss on a concrete
one-transition batch still returns (with the diagnostic), and one that
reports the loss `3/2` returns it unchanged. -/
theorem C9_nan_loss_witness :
    fit_batch 2 exampleTM (fun _ _ _ => none)
        ⟨[0], [0], [1], [1], [false]⟩
      = (none, [masked_targets 2 exampleTM ⟨[0], [0], [1], [1], [false]⟩]) ∧
    fit_batch 2 exampleTM (fun _ _ _ => some (3 / 2))
        ⟨[0], [0], [1], [1], [false]⟩
      = (some (3 / 2), []) := by
  constructor
  · exact (C9_nan_loss ℕ 2 exampleTM (fun _ _ _ => none)
      ⟨[0], [0], [1], [1], [false]⟩).2.1 rfl
  · exact (C9_nan_loss ℕ 2 exampleTM (fun _ _ _ => some (3 / 2))
      ⟨[0], [0], [1], [1], [false]⟩).2.2 (3 / 2) rfl

/-- The environment collaborator of `run.py` (gym interface): a reset
state, a deterministic transition function on states and actions
returning `(next_observation, reward, done)`, the action-space size, and
the stream of values `env.action_space.sample()` returns (its randomness
made explicit, indexed by how many samples were drawn so far). -/
structure Env (S : Type) where
  reset : S
  step : S → ℕ → S × ℚ × Bool
  n_actions : ℕ
  sampleStream : ℕ → ℕ

/-- The loop state of `evaluate` in `run.py` (lines 131-168).  Fields
named as in the source; `rnd` and `smp` index the explicit
`random.random()` and `action_space.sample()` streams.  The final three
fields are ghost instrumentation (step-call count, exploration
probability passed to `epsilon_greedy_action` at each step, number of
terminal transitions observed); they influence nothing else. -/
structure EvalSt (S : Type) where
  done : Bool
  episode : ℕ
  episode_return_sum : ℚ
  episode_return_min : WithTop ℚ
  episode_return_max : WithBot ℚ
  episode_return : ℚ
  episode_steps : ℕ
  next_obs : S
  rnd : ℕ
  smp : ℕ
  stepCalls : ℕ
  epsUsed : List ℚ
  doneSeen : ℕ

/-- One iteration of the `for step in range(1, eval_steps)` loop of
`evaluate`: on `done`, flush the previous episode's return into the
sum/min/max aggregates (only when an episode exists) and reset; then pick
an action with `epsilon_greedy_action(..., EPSILON_FINAL)` and take one
environment step. -/
def evalIter {S : Type} (env : Env S) (model : S → List ℚ) (rands : ℕ → ℚ)
    (st : EvalSt S) : EvalSt S :=
  let stObs : EvalSt S × S :=
    if st.done then
      let stF :=
        if 0 < st.episode then
          { st with
              episode_return_sum := st.episode_return_sum + st.episode_return
            , episode_return_min := min st.episode_return_min (st.episode_return : WithTop ℚ)
            , episode_return_max := max st.episode_return_max (st.episode_return : WithBot ℚ) }
        else st
      ({ stF with episode := stF.episode + 1, episode_return := 0, episode_steps := 0 },
        env.reset)
    else (st, st.next_obs)
  let st1 := stObs.1
  let obs := stObs.2
  let rand := rands st1.rnd
  let action := epsilon_greedy_action env.n_actions model obs EPSILON_FINAL rand
    (env.sampleStream st1.smp)
  let res := env.step obs action
  { st1 with
      next_obs := res.1
    , done := res.2.2
    , episode_return := st1.episode_return + res.2.1
    , episode_steps := st1.episode_steps + 1
    , rnd := st1.rnd + 1
    , smp := st1.smp + (if rand < EPSILON_FINAL then 1 else 0)
    , stepCalls := st1.stepCalls + 1
    , epsUsed := st1.epsUsed ++ [EPSILON_FINAL]
    , doneSeen := st1.doneSeen + (if res.2.2 then 1 else 0) }

/-- The state of `evaluate` before its loop: `done = True`,
`episode = 0`, sum `0.0`, min `inf`, max `-inf`.  The `next_obs` field
is a placeholder (the Python variable is unbound until the first
iteration, which always runs the reset branch). -/
def evalInit {S : Type} (env : Env S) : EvalSt S :=
  { done := true, episode := 0, episode_return_sum := 0
  , episode_return_min := ⊤, episode_return_max := ⊥
  , episode_return := 0, episode_steps := 0, next_obs := env.reset
  , rnd := 0, smp := 0, stepCalls := 0, epsUsed := [], doneSeen := 0 }

/-- The state of `evaluate` after `k` loop iterations. -/
def evalSteps {S : Type} (env : Env S) (model : S → List ℚ) (rands : ℕ → ℚ) :
    ℕ → EvalSt S
  | 0 => evalInit env
  | k + 1 => evalIter env model rands (evalSteps env model rands k)

/-- The loop of `evaluate(env, model, eval_steps=...)` runs
`range(1, eval_steps)`, i.e. `eval_steps - 1` iterations. -/
def evalLoop {S : Type} (env : Env S) (model : S → List ℚ) (rands : ℕ → ℚ)
    (eval_steps : ℕ) : EvalSt S :=
  evalSteps env model rands (eval_steps - 1)

/-- The function `evaluate` of `run.py`: after the loop,
`assert episode > 0` (modelled as returning `none`, the raise) and
otherwise the triple `(episode_return_sum / episode, min, max)`. -/
def evaluate {S : Type} (env : Env S) (model : S → List ℚ) (rands : ℕ → ℚ)
    (eval_steps : ℕ) : Option (ℚ × WithTop ℚ × WithBot ℚ) :=
  if 0 < (evalLoop env model rands eval_steps).episode then
    some ((evalLoop env model rands eval_steps).episode_return_sum
        / ((evalLoop env model rands eval_steps).episode : ℚ),
      (evalLoop env model rands eval_steps).episode_return_min,
      (evalLoop env model rands eval_steps).episode_return_max)
  else none

theorem evalIter_stepCalls {S : Type} (env : Env S) (model : S → List ℚ)
    (rands : ℕ → ℚ) (st : EvalSt S) :
    (evalIter env model rands st).stepCalls = st.stepCalls + 1 := by
  unfold evalIter
  split
  · split_ifs <;> rfl
  · rfl

theorem evalIter_epsUsed {S : Type} (env : Env S) (model : S → List ℚ)
    (rands : ℕ → ℚ) (st : EvalSt S) :
    (evalIter env model rands st).epsUsed = st.epsUsed ++ [EPSILON_FINAL] := by
  unfold evalIter
  split
  · split_ifs <;> rfl
  · rfl

theorem evalSteps_stepCalls {S : Type} (env : Env S) (model : S → List ℚ)
    (rands : ℕ → ℚ) : ∀ k : ℕ, (evalSteps env model rands k).stepCalls = k
  | 0 => rfl
  | k + 1 => by
      rw [evalSteps, evalIter_stepCalls, evalSteps_stepCalls env model rands k]

theorem evalSteps_epsUsed {S : Type} (env : Env S) (model : S → List ℚ)
    (rands : ℕ → ℚ) :
    ∀ k : ℕ, (evalSteps env model rands k).epsUsed = List.replicate k EPSILON_FINAL
  | 0 => rfl
  | k + 1 => by
      rw [evalSteps, evalIter_epsUsed, evalSteps_epsUsed env model rands k,
        ← List.replicate_succ' k EPSILON_FINAL]

/-- Claim C4: for any `eval_steps ≥ 1`, the loop of `evaluate` calls
`env.step` exactly `eval_steps - 1` times, and every one of those calls
uses an action chosen by `epsilon_greedy_action` with exploration
probability exactly `EPSILON_FINAL = 0.02`, which is positive (never
fully greedy). -/
theorem C4_eval_step_count (S : Type) (env : Env S) (model : S → List ℚ)
    (rands : ℕ → ℚ) (eval_steps : ℕ) (_h : 1 ≤ eval_steps) :
    (evalLoop env model rands eval_steps).stepCalls = eval_steps - 1 ∧
    (evalLoop env model rands eval_steps).epsUsed
        = List.replicate (eval_steps - 1) EPSILON_FINAL ∧
    EPSILON_FINAL = 2 / 100 ∧ (0 : ℚ) < EPSILON_FINAL := by
  refine ⟨?_, ?_, rfl, by norm_num [EPSILON_FINAL]⟩
  · exact evalSteps_stepCalls env model rands (eval_steps - 1)
  · exact evalSteps_epsUsed env model rands (eval_steps - 1)

/-- Witness for C4 at a concrete environment and budget `4`: exactly `3`
environment steps, all selected at exploration probability
`EPSILON_FINAL`. -/
theorem C4_eval_step_count_witness :
    (evalLoop ⟨0, fun s _ => (s + 1, 1, false), 1, fun _ => 0⟩
        (fun _ : ℕ => [0]) (fun _ => 1) 4).stepCalls = 3 ∧
    (evalLoop ⟨0, fun s _ => (s + 1, 1, false), 1, fun _ => 0⟩
        (fun _ : ℕ => [0]) (fun _ => 1) 4).epsUsed
      = [EPSILON_FINAL, EPSILON_FINAL, EPSILON_FINAL] := by
  have h := C4_eval_step_count ℕ ⟨0, fun s _ => (s + 1, 1, false), 1, fun _ => 0⟩
    (fun _ : ℕ => [0]) (fun _ => 1) 4 (by norm_num)
  exact ⟨h.1, h.2.1⟩

/-- A scripted evaluation environment: fixed reward `r` on every step and
`done` exactly every `T` steps, regardless of the action taken; the state
counts steps within the current episode. -/
def scriptedEnv (r : ℚ) (T : ℕ) : Env ℕ :=
  { reset := 0
  , step := fun s _ => (s + 1, r, decide ((s + 1) % T = 0))
  , n_actions := 1
  , sampleStream := fun _ => 0 }

theorem scriptedEnv_reset (r : ℚ) (T : ℕ) : (scriptedEnv r T).reset = 0 := rfl

theorem scriptedEnv_step (r : ℚ) (T : ℕ) (s a : ℕ) :
    (scriptedEnv r T).step s a = (s + 1, r, decide ((s + 1) % T = 0)) := rfl

/-- Unfolding of one `evaluate` iteration from a terminal (or initial)
state with at least one episode already started: flush, reset, then one
environment step. -/
theorem evalIter_done_eq {S : Type} (env : Env S) (model : S → List ℚ)
    (rands : ℕ → ℚ) (st : EvalSt S) (hd : st.done = true) (hp : 0 < st.episode) :
    evalIter env model rands st =
      (let rand := rands st.rnd
       let action := epsilon_greedy_action env.n_actions model env.reset EPSILON_FINAL rand
         (env.sampleStream st.smp)
       let res := env.step env.reset action
       { done := res.2.2
       , episode := st.episode + 1
       , episode_return_sum := st.episode_return_sum + st.episode_return
       , episode_return_min := min st.episode_return_min (st.episode_return : WithTop ℚ)
       , episode_return_max := max st.episode_return_max (st.episode_return : WithBot ℚ)
       , episode_return := 0 + res.2.1
       , episode_steps := 0 + 1
       , next_obs := res.1
       , rnd := st.rnd + 1
       , smp := st.smp + (if rand < EPSILON_FINAL then 1 else 0)
       , stepCalls := st.stepCalls + 1
       , epsUsed := st.epsUsed ++ [EPSILON_FINAL]
       , doneSeen := st.doneSeen + (if res.2.2 then 1 else 0) }) := by
  simp [evalIter, hd, hp]

/-- Unfolding of one `evaluate` iteration from an initial state with no
episode started yet. -/
theorem evalIter_init_eq {S : Type} (env : Env S) (model : S → List ℚ)
    (rands : ℕ → ℚ) (st : EvalSt S) (hd : st.done = true) (hp : st.episode = 0) :
    evalIter env model rands st =
      (let rand := rands st.rnd
       let action := epsilon_greedy_action env.n_actions model env.reset EPSILON_FINAL rand
         (env.sampleStream st.smp)
       let res := env.step env.reset action
       { done := res.2.2
       , episode := st.episode + 1
       , episode_return_sum := st.episode_return_sum
       , episode_return_min := st.episode_return_min
       , episode_return_max := st.episode_return_max
       , episode_return := 0 + res.2.1
       , episode_steps := 0 + 1
       , next_obs := res.1
       , rnd := st.rnd + 1
       , smp := st.smp + (if rand < EPSILON_FINAL then 1 else 0)
       , stepCalls := st.stepCalls + 1
       , epsUsed := st.epsUsed ++ [EPSILON_FINAL]
       , doneSeen := st.doneSeen + (if res.2.2 then 1 else 0) }) := by
  simp [evalIter, hd, hp]

/-- Unfolding of one `evaluate` iteration from a running (non-terminal)
state: continue the current episode from `next_obs`. -/
theorem evalIter_running_eq {S : Type} (env : Env S) (model : S → List ℚ)
    (rands : ℕ → ℚ) (st : EvalSt S) (hd : st.done = false) :
    evalIter env model rands st =
      (let rand := rands st.rnd
       let action := epsilon_greedy_action env.n_actions model st.next_obs EPSILON_FINAL rand
         (env.sampleStream st.smp)
       let res := env.step st.next_obs action
       { done := res.2.2
       , episode := st.episode
       , episode_return_sum := st.episode_return_sum
       , episode_return_min := st.episode_return_min
       , episode_return_max := st.episode_return_max
       , episode_return := st.episode_return + res.2.1
       , episode_steps := st.episode_steps + 1
       , next_obs := res.1
       , rnd := st.rnd + 1
       , smp := st.smp + (if rand < EPSILON_FINAL then 1 else 0)
       , stepCalls := st.stepCalls + 1
       , epsUsed := st.epsUsed ++ [EPSILON_FINAL]
       , doneSeen := st.doneSeen + (if res.2.2 then 1 else 0) }) := by
  simp [evalIter, hd]

/-- State of the `evaluate` loop on a scripted environment after `k ≥ 1`
iterations: with `k = T * e + j` and `1 ≤ j ≤ T`, exactly `e + 1`
episodes have started, `e` episode returns of `r * T` each have been
accumulated, the in-progress episode has return `r * j`, and exactly
`e` terminal flags (plus one if the current step just hit the terminal)
have been observed. -/
theorem scripted_inv (r : ℚ) (T : ℕ) (model : ℕ → List ℚ) (rands : ℕ → ℚ)
    (hT : 1 ≤ T) :
    ∀ k : ℕ, 1 ≤ k →
      ∃ e j : ℕ, k = T * e + j ∧ 1 ≤ j ∧ j ≤ T ∧
        (evalSteps (scriptedEnv r T) model rands k).episode = e + 1 ∧
        (evalSteps (scriptedEnv r T) model rands k).episode_return_sum = r * T * e ∧
        (evalSteps (scriptedEnv r T) model rands k).episode_return = r * j ∧
        (evalSteps (scriptedEnv r T) model rands k).next_obs = j ∧
        (evalSteps (scriptedEnv r T) model rands k).done = decide (j % T = 0) ∧
        (evalSteps (scriptedEnv r T) model rands k).doneSeen
            = e + (if j = T then 1 else 0) := by
  intro k
  induction k with
  | zero => intro h; omega
  | succ m ih =>
    intro _
    by_cases hm : 1 ≤ m
    · obtain ⟨e, j, hk, hj1, hjT, hep, hsum, hret, hobs, hdone, hds⟩ := ih hm
      by_cases hjc : j = T
      · -- the previous iteration hit the terminal: flush and reset
        have hdT : (evalSteps (scriptedEnv r T) model rands m).done = true := by
          rw [hdone, hjc]
          simp [Nat.mod_self]
        have hpos : 0 < (evalSteps (scriptedEnv r T) model rands m).episode := by
          rw [hep]; omega
        refine ⟨e + 1, 1, by rw [Nat.mul_succ]; omega, le_rfl, hT, ?_, ?_, ?_, ?_, ?_, ?_⟩ <;>
          rw [evalSteps, evalIter_done_eq _ _ _ _ hdT hpos]
        · simp [hep]
        · simp only [scriptedEnv_reset, scriptedEnv_step]
          simp [hsum, hret, hjc]
          ring
        · simp [scriptedEnv_reset, scriptedEnv_step]
        · simp [scriptedEnv_reset, scriptedEnv_step]
        · simp [scriptedEnv_reset, scriptedEnv_step]
        · simp only [scriptedEnv_reset, scriptedEnv_step]
          simp [hds, hjc]
          by_cases h1 : T = 1
          · simp [h1]
          · have h1m : (1 : ℕ) % T = 1 := Nat.mod_eq_of_lt (by omega)
            have h1T : ¬ ((1 : ℕ) = T) := fun h => h1 h.symm
            simp [h1m, h1T]
            exact h1
      · -- mid-episode: the loop continues the current episode
        have hjlt : j < T := by omega
        have hdF : (evalSteps (scriptedEnv r T) model rands m).done = false := by
          rw [hdone]
          have hmod : j % T = j := Nat.mod_eq_of_lt hjlt
          simp [hmod]
          omega
        refine ⟨e, j + 1, by omega, by omega, by omega, ?_, ?_, ?_, ?_, ?_, ?_⟩ <;>
          rw [evalSteps, evalIter_running_eq _ _ _ _ hdF]
        · simp [hep]
        · simp [hsum]
        · simp [scriptedEnv_step, hret]
          ring
        · simp [scriptedEnv_step, hobs]
        · simp [scriptedEnv_step, hobs]
        · simp only [scriptedEnv_step, hobs]
          simp [hds, hjc]
          by_cases h1 : j + 1 = T
          · simp [h1, Nat.mod_self]
          · have hmod : (j + 1) % T = j + 1 := Nat.mod_eq_of_lt (by omega)
            simp [hmod, h1]
    · -- first iteration: reset, one step of the new episode
      have hm0 : m = 0 := by omega
      subst hm0
      have hd0 : (evalSteps (scriptedEnv r T) model rands 0).done = true := rfl
      have hp0 : (evalSteps (scriptedEnv r T) model rands 0).episode = 0 := rfl
      refine ⟨0, 1, by omega, le_rfl, hT, ?_, ?_, ?_, ?_, ?_, ?_⟩ <;>
        rw [evalSteps, evalIter_init_eq _ _ _ _ hd0 hp0]
      · simp [evalSteps, evalInit]
      · simp [evalSteps, evalInit]
      · simp [evalSteps, evalInit, scriptedEnv_reset, scriptedEnv_step]
      · simp [evalSteps, evalInit, scriptedEnv_reset, scriptedEnv_step]
      · simp [evalSteps, evalInit, scriptedEnv_reset, scriptedEnv_step]
      · simp only [evalSteps, evalInit, scriptedEnv_reset, scriptedEnv_step]
        by_cases h1 : T = 1
        · simp [h1]
        · have h1m : (1 : ℕ) % T = 1 := Nat.mod_eq_of_lt (by omega)
          have h1T : ¬ ((1 : ℕ) = T) := fun h => h1 h.symm
          simp [h1m, h1T]

/-- Claim C3 (amended): on a scripted environment with fixed reward `r`
and episode length `T`, `evaluate` with budget `eval_steps ≥ 2` reports
`episode_return_avg = r * T * e / (e + 1)` with `e = (eval_steps - 2) / T`:
the sum of the `e` accumulated episode returns (episodes whose terminal
step was followed by another loop iteration) divided by the number `e + 1`
of episodes STARTED — not `r * T`, the mean over completed episodes,
except when `r * T = 0`. -/
theorem C3_eval_average (r : ℚ) (T : ℕ) (model : ℕ → List ℚ) (rands : ℕ → ℚ)
    (eval_steps : ℕ) (hT : 1 ≤ T) (hs : 2 ≤ eval_steps) :
    (evaluate (scriptedEnv r T) model rands eval_steps).map (fun x => x.1)
      = some (r * T * (((eval_steps - 2) / T : ℕ) : ℚ)
          / ((((eval_steps - 2) / T : ℕ) : ℚ) + 1)) := by
  obtain ⟨e, j, hk, hj1, hjT, hep, hsum, -, -, -, -⟩ :=
    scripted_inv r T model rands hT (eval_steps - 1) (by omega)
  have hdiv : (eval_steps - 2) / T = e := by
    have h2 : eval_steps - 2 = T * e + (j - 1) := by omega
    rw [h2, Nat.mul_add_div (by omega)]
    have hj0 : (j - 1) / T = 0 := Nat.div_eq_of_lt (by omega)
    omega
  simp only [evaluate, evalLoop, hep, hsum, hdiv, Nat.succ_pos, if_true, Option.map_some']
  push_cast
  ring_nf

/-- Witness for amended C3: reward `2`, episode length `2`, budget `6`
(five transitions): two episode returns of `4` are accumulated but three
episodes started, so the reported average is `8/3`. -/
theorem C3_eval_average_witness :
    (evaluate (scriptedEnv 2 2) (fun _ => [0]) (fun _ => 1) 6).map (fun x => x.1)
      = some (8 / 3) := by
  have h := C3_eval_average 2 2 (fun _ => [0]) (fun _ => 1) 6 (by norm_num) (by norm_num)
  rw [h]
  norm_num

/-- Counterexample to C3 as stated: scripted reward `1` and episode
length `1` with budget `3`; two episodes complete (two terminal flags
observed), so the claimed mean over completed episodes is
`r * T = 1`, but `evaluate` reports `1/2` (it divides the single
accumulated return by the number of episodes started). -/
theorem C3_counterexample :
    (evaluate (scriptedEnv 1 1) (fun _ => [0]) (fun _ => 1) 3).map (fun x => x.1)
        = some (1 / 2) ∧
    (evalLoop (scriptedEnv 1 1) (fun _ => [0]) (fun _ => 1) 3).doneSeen = 2 ∧
    ¬ ((1 : ℚ) / 2 = 1 * 1) := by
  obtain ⟨e, j, hk, hj1, hjT, hep, hsum, -, -, -, hds⟩ :=
    scripted_inv 1 1 (fun _ => [0]) (fun _ => 1) le_rfl 2 (by omega)
  have he : e = 1 := by omega
  have hj : j = 1 := by omega
  subst he hj
  have h31 : (3 : ℕ) - 1 = 2 := rfl
  refine ⟨?_, ?_, by norm_num⟩
  · simp only [evaluate, evalLoop, h31, hep, hsum]
    norm_num
  · simp only [evalLoop, h31, hds]
    norm_num

theorem evalIter_episode_le {S : Type} (env : Env S) (model : S → List ℚ)
    (rands : ℕ → ℚ) (st : EvalSt S) :
    st.episode ≤ (evalIter env model rands st).episode := by
  unfold evalIter
  split
  · split_ifs <;> simp
  · simp

theorem evalSteps_episode_pos {S : Type} (env : Env S) (model : S → List ℚ)
    (rands : ℕ → ℚ) :
    ∀ k : ℕ, 1 ≤ k → 0 < (evalSteps env model rands k).episode := by
  intro k
  induction k with
  | zero => intro h; omega
  | succ m ih =>
    intro _
    by_cases hm : 1 ≤ m
    · have hle := evalIter_episode_le env model rands (evalSteps env model rands m)
      rw [evalSteps]
      exact lt_of_lt_of_le (ih hm) hle
    · have hm0 : m = 0 := by omega
      subst hm0
      simp [evalSteps, evalIter, evalInit]

/-- Claim C5 (amended): the `assert episode > 0` at the end of `evaluate`
fires iff no episode ever STARTED, i.e. iff `eval_steps ≤ 1` so that the
loop body never ran; it does not require any episode to complete, and a
run in which zero episodes complete but `eval_steps ≥ 2` returns
normally. -/
theorem C5_eval_raises_iff (S : Type) (env : Env S) (model : S → List ℚ)
    (rands : ℕ → ℚ) (eval_steps : ℕ) :
    evaluate env model rands eval_steps = none ↔ eval_steps ≤ 1 := by
  constructor
  · intro hnone
    by_contra hgt
    have h2 : 1 ≤ eval_steps - 1 := by omega
    have hpos := evalSteps_episode_pos env model rands (eval_steps - 1) h2
    simp only [evaluate, evalLoop] at hnone
    rw [if_pos hpos] at hnone
    exact Option.some_ne_none _ hnone
  · intro hle
    have h0 : eval_steps - 1 = 0 := by omega
    simp only [evaluate, evalLoop, h0]
    rfl

/-- Counterexample to C5 as stated: scripted episode length `5` with a
budget of `3` (two transitions): zero episodes complete (no terminal
flag is observed), and the claim says the call must raise, yet
`evaluate` returns normally. -/
theorem C5_counterexample :
    (evalLoop (scriptedEnv 1 5) (fun _ => [0]) (fun _ => 1) 3).doneSeen = 0 ∧
    evaluate (scriptedEnv 1 5) (fun _ => [0]) (fun _ => 1) 3 ≠ none := by
  obtain ⟨e, j, hk, hj1, hjT, hep, -, -, -, -, hds⟩ :=
    scripted_inv 1 5 (fun _ => [0]) (fun _ => 1) (by omega) 2 (by omega)
  have he : e = 0 := by omega
  have hj : j = 2 := by omega
  subst he hj
  have h31 : (3 : ℕ) - 1 = 2 := rfl
  constructor
  · simp only [evalLoop, h31, hds]
    norm_num
  · simp only [evaluate, evalLoop, h31, hep]
    simp

/-- The observable replay-buffer / network events emitted by one
iteration of the `train` loop, in program order. -/
inductive Event
  | add : Event
  | sync : Event
  | sample : ℕ → Event
  | fit : Event
deriving DecidableEq

/-- The learning-cadence block of `train` (lines 231-235 of `run.py`):
when `step >= TRAIN_START and step % UPDATE_EVERY == 0`, first (when
`step % TARGET_UPDATE_EVERY == 0`) copy the online weights into the
target model, then sample a batch of `BATCH_SIZE`, then fit. -/
def learnEvents (step : ℕ) : List Event :=
  if TRAIN_START ≤ step ∧ step % UPDATE_EVERY = 0 then
    (if step % TARGET_UPDATE_EVERY = 0 then [Event.sync] else [])
      ++ [Event.sample BATCH_SIZE, Event.fit]
  else []

/-- The replay-relevant events of one full `train` iteration (lines
227-237 of `run.py`): the unconditional `replay.add`, then the learning
block, then the one-off validation sample at `step == TRAIN_START`. -/
def trainStepEvents (step : ℕ) : List Event :=
  Event.add ::
    (learnEvents step ++ (if step = TRAIN_START then [Event.sample VALIDATION_SIZE] else []))

/-- Events of the `for step in range(1, max_steps + 1)` loop of `train`,
steps `1 .. max_steps` in order. -/
def trainTrace : ℕ → List Event
  | 0 => []
  | n + 1 => trainTrace n ++ trainStepEvents (n + 1)

/-- The network-version slice of one `train` iteration: `online` counts
gradient updates of the online model, `target` records the online
version captured at the last sync.  Returns the new state and, when a
learning step happens, the target version `fit_batch` used. -/
structure TrainNet where
  online : ℕ
  target : ℕ
deriving DecidableEq

def trainNetStep (step : ℕ) (st : TrainNet) : TrainNet × Option ℕ :=
  if TRAIN_START ≤ step ∧ step % UPDATE_EVERY = 0 then
    let st1 := if step % TARGET_UPDATE_EVERY = 0 then { st with target := st.online } else st
    ({ st1 with online := st1.online + 1 }, some st1.target)
  else (st, none)

/-- The `assert` statements at the top of `main` in `run.py`. -/
def main_asserts : Prop :=
  (BATCH_SIZE ≤ TRAIN_START ∧ TRAIN_START ≤ REPLAY_BUFFER_SIZE) ∧
    TARGET_UPDATE_EVERY % UPDATE_EVERY = 0

/-- Claim C6: the startup assertion enforces that `TARGET_UPDATE_EVERY`
is a multiple of `UPDATE_EVERY`; consequently at every step
`s ≥ TRAIN_START` with `s % TARGET_UPDATE_EVERY == 0` the learning block
runs and its event order is sync, then batch sampling, then fit — so the
target network used by the learning step at `s` is the online network
as just synced at `s`. -/
theorem C6_target_sync_order :
    main_asserts ∧
    (∀ s : ℕ, TRAIN_START ≤ s → s % TARGET_UPDATE_EVERY = 0 →
      learnEvents s = [Event.sync, Event.sample BATCH_SIZE, Event.fit] ∧
      ∀ st : TrainNet,
        trainNetStep s st = (⟨st.online + 1, st.online⟩, some st.online)) := by
  constructor
  · exact ⟨⟨by norm_num [BATCH_SIZE, TRAIN_START],
      by norm_num [TRAIN_START, REPLAY_BUFFER_SIZE]⟩,
      by norm_num [TARGET_UPDATE_EVERY, UPDATE_EVERY]⟩
  · intro s hs hmod
    have hdvd : UPDATE_EVERY ∣ s := by
      refine dvd_trans ?_ (Nat.dvd_of_mod_eq_zero hmod)
      norm_num [UPDATE_EVERY, TARGET_UPDATE_EVERY]
    have hu : s % UPDATE_EVERY = 0 := by
      obtain ⟨c, hc⟩ := hdvd
      rw [hc]
      exact Nat.mul_mod_right _ _
    constructor
    · simp [learnEvents, hs, hu, hmod]
    · intro st
      simp [trainNetStep, hs, hu, hmod]

/-- Witness for C6 at the concrete step `10000` (which is both
`TRAIN_START` and a sync step) and network versions `(5, 2)`: the fit at
that step uses target version `5`, the online version captured by the
sync in the same iteration. -/
theorem C6_target_sync_order_witness :
    learnEvents 10000 = [Event.sync, Event.sample BATCH_SIZE, Event.fit] ∧
    trainNetStep 10000 ⟨5, 2⟩ = (⟨6, 5⟩, some 5) := by
  have h := C6_target_sync_order.2 10000 (by norm_num [TRAIN_START])
    (by norm_num [TARGET_UPDATE_EVERY])
  exact ⟨h.1, h.2 ⟨5, 2⟩⟩

def isAdd : Event → Bool
  | Event.add => true
  | _ => false

/-- Number of `replay.add` calls in an event list. -/
def countAdds (es : List Event) : ℕ :=
  es.countP isAdd

/-- Checks an event trace against the replay buffer's insertion count:
starting from `c` transitions already inserted, every `sample k` event
must request at most the number of transitions inserted so far. -/
def replayOk : ℕ → List Event → Bool
  | _, [] => true
  | c, Event.add :: es => replayOk (c + 1) es
  | c, Event.sample k :: es => decide (k ≤ c) && replayOk c es
  | c, Event.sync :: es => replayOk c es
  | c, Event.fit :: es => replayOk c es

theorem countAdds_append (es fs : List Event) :
    countAdds (es ++ fs) = countAdds es + countAdds fs := by
  simp [countAdds, List.countP_append]

theorem replayOk_append : ∀ (es fs : List Event) (c : ℕ),
    replayOk c (es ++ fs) = (replayOk c es && replayOk (c + countAdds es) fs)
  | [], fs, c => by simp [replayOk, countAdds]
  | Event.add :: es, fs, c => by
      simp [replayOk, countAdds, List.countP_cons, isAdd,
        replayOk_append es fs (c + 1)]
      ring_nf
  | Event.sample k :: es, fs, c => by
      simp [replayOk, countAdds, List.countP_cons, isAdd,
        replayOk_append es fs c, Bool.and_assoc]
  | Event.sync :: es, fs, c => by
      simp [replayOk, countAdds, List.countP_cons, isAdd, replayOk_append es fs c]
  | Event.fit :: es, fs, c => by
      simp [replayOk, countAdds, List.countP_cons, isAdd, replayOk_append es fs c]

theorem countAdds_learnEvents (s : ℕ) : countAdds (learnEvents s) = 0 := by
  unfold learnEvents
  split_ifs <;> simp [countAdds, List.countP_cons, List.countP_append, isAdd]

theorem countAdds_trainStepEvents (s : ℕ) : countAdds (trainStepEvents s) = 1 := by
  unfold trainStepEvents
  rw [countAdds, List.countP_cons]
  have h := countAdds_learnEvents s
  rw [countAdds] at h
  rw [List.countP_append, h]
  have hval : List.countP isAdd
      (if s = TRAIN_START then [Event.sample VALIDATION_SIZE] else []) = 0 := by
    split_ifs <;> simp [isAdd]
  rw [hval]
  simp [isAdd]

theorem countAdds_trainTrace : ∀ n : ℕ, countAdds (trainTrace n) = n
  | 0 => rfl
  | n + 1 => by
      rw [trainTrace, countAdds_append, countAdds_trainTrace n,
        countAdds_trainStepEvents]

theorem replayOk_learnEvents (s c : ℕ) (hc : s ≤ c) :
    replayOk c (learnEvents s) = true := by
  unfold learnEvents
  split_ifs with h1 h2
  · have hb : BATCH_SIZE ≤ c := by
      have := h1.1
      simp only [TRAIN_START] at this
      simp only [BATCH_SIZE]
      omega
    simp [replayOk, hb]
  · have hb : BATCH_SIZE ≤ c := by
      have := h1.1
      simp only [TRAIN_START] at this
      simp only [BATCH_SIZE]
      omega
    simp [replayOk, hb]
  · rfl

theorem replayOk_trainStepEvents (s c : ℕ) (hc : c + 1 = s) :
    replayOk c (trainStepEvents s) = true := by
  unfold trainStepEvents
  rw [replayOk, replayOk_append]
  have hok : replayOk (c + 1) (learnEvents s) = true :=
    replayOk_learnEvents s (c + 1) (by omega)
  rw [hok, Bool.true_and, countAdds_learnEvents, Nat.add_zero]
  split_ifs with hts
  · have hv : VALIDATION_SIZE ≤ c + 1 := by
      simp only [VALIDATION_SIZE]
      simp only [TRAIN_START] at hts
      omega
    simp [replayOk, hv]
  · rfl

/-- Claim C10: every `train` iteration emits exactly one `replay.add`,
so after step `s` exactly `s` transitions have been inserted; sampling
happens only at steps `s ≥ TRAIN_START` with sizes `BATCH_SIZE` or
`VALIDATION_SIZE`, both of which are at most `TRAIN_START`; hence along
the whole trace every sample requests no more transitions than have been
inserted (checked by `replayOk` from an empty buffer). -/
theorem C10_replay_accounting :
    (∀ s : ℕ, countAdds (trainStepEvents s) = 1) ∧
    (∀ n : ℕ, countAdds (trainTrace n) = n) ∧
    (∀ n : ℕ, replayOk 0 (trainTrace n) = true) ∧
    (∀ s k : ℕ, Event.sample k ∈ trainStepEvents s →
      TRAIN_START ≤ s ∧ (k = BATCH_SIZE ∨ k = VALIDATION_SIZE)) ∧
    BATCH_SIZE ≤ TRAIN_START ∧ VALIDATION_SIZE ≤ TRAIN_START := by
  refine ⟨countAdds_trainStepEvents, countAdds_trainTrace, ?_, ?_, ?_, ?_⟩
  · intro n
    induction n with
    | zero => rfl
    | succ m ih =>
        rw [trainTrace, replayOk_append, ih, Bool.true_and, countAdds_trainTrace,
          Nat.zero_add]
        exact replayOk_trainStepEvents (m + 1) m rfl
  · intro s k hmem
    simp only [trainStepEvents, learnEvents, List.mem_cons, List.mem_append] at hmem
    rcases hmem with h | h | h
    · exact absurd h (by simp)
    · by_cases h1 : TRAIN_START ≤ s ∧ s % UPDATE_EVERY = 0
      · rw [if_pos h1] at h
        refine ⟨h1.1, Or.inl ?_⟩
        split_ifs at h <;> simp at h <;> exact h
      · rw [if_neg h1] at h
        simp at h
    · by_cases h2 : s = TRAIN_START
      · rw [if_pos h2] at h
        simp at h
        exact ⟨le_of_eq h2.symm, Or.inr h⟩
      · rw [if_neg h2] at h
        simp at h
  · norm_num [BATCH_SIZE, TRAIN_START]
  · norm_num [VALIDATION_SIZE, TRAIN_START]

/-- Witness for C10: the validation sample at step `TRAIN_START = 10000`
is classified by the sampling conjunct. -/
theorem C10_replay_accounting_witness :
    TRAIN_START ≤ 10000 ∧ (VALIDATION_SIZE = BATCH_SIZE ∨ VALIDATION_SIZE = VALIDATION_SIZE) :=
  C10_replay_accounting.2.2.2.1 10000 VALIDATION_SIZE
    (by simp [trainStepEvents, learnEvents, TRAIN_START, UPDATE_EVERY, TARGET_UPDATE_EVERY])

/-- The exploration-relevant loop state of `train` in `run.py` (lines
219-229).  `episode_start_step` is the source variable of the same name;
`epsTrace` is ghost instrumentation recording, for each step, the step
number, the `episode_start_step` in force, and the epsilon passed to
`epsilon_greedy_action` at that step.  The initial `epsilon` value `0`
models the unbound Python variable, which is never read because the
first iteration always runs the episode-boundary branch. -/
structure TrainSt (S : Type) where
  done : Bool
  episode : ℕ
  episode_return : ℚ
  epsilon : ℚ
  episode_start_step : ℕ
  next_obs : S
  rnd : ℕ
  smp : ℕ
  epsTrace : List (ℕ × ℕ × ℚ)

/-- One iteration of the `train` loop restricted to its exploration
slice: on `done`, reset the environment and recompute `epsilon` once via
`epsilon_for_step(step)`; then select an action with the episode's
epsilon and take one environment step. -/
def trainExpIter {S : Type} (env : Env S) (model : S → List ℚ) (rands : ℕ → ℚ)
    (step : ℕ) (st : TrainSt S) : TrainSt S :=
  let stObs : TrainSt S × S :=
    if st.done then
      ({ st with
           episode_start_step := step
         , episode := st.episode + 1
         , episode_return := 0
         , epsilon := epsilon_for_step step }, env.reset)
    else (st, st.next_obs)
  let st1 := stObs.1
  let obs := stObs.2
  let rand := rands st1.rnd
  let action := epsilon_greedy_action env.n_actions model obs st1.epsilon rand
    (env.sampleStream st1.smp)
  let res := env.step obs action
  { st1 with
      next_obs := res.1
    , done := res.2.2
    , episode_return := st1.episode_return + res.2.1
    , rnd := st1.rnd + 1
    , smp := st1.smp + (if rand < st1.epsilon then 1 else 0)
    , epsTrace := st1.epsTrace ++ [(step, st1.episode_start_step, st1.epsilon)] }

def trainExpInit {S : Type} (env : Env S) : TrainSt S :=
  { done := true, episode := 0, episode_return := 0, epsilon := 0
  , episode_start_step := 0, next_obs := env.reset, rnd := 0, smp := 0, epsTrace := [] }

/-- State of the exploration slice of `train` after processing steps
`1 .. n`. -/
def trainExpSteps {S : Type} (env : Env S) (model : S → List ℚ) (rands : ℕ → ℚ) :
    ℕ → TrainSt S
  | 0 => trainExpInit env
  | n + 1 => trainExpIter env model rands (n + 1) (trainExpSteps env model rands n)

/-- Unfolding of one `train` iteration at an episode boundary. -/
theorem trainExpIter_done_eq {S : Type} (env : Env S) (model : S → List ℚ)
    (rands : ℕ → ℚ) (step : ℕ) (st : TrainSt S) (hd : st.done = true) :
    trainExpIter env model rands step st =
      (let rand := rands st.rnd
       let action := epsilon_greedy_action env.n_actions model env.reset
         (epsilon_for_step step) rand (env.sampleStream st.smp)
       let res := env.step env.reset action
       { done := res.2.2
       , episode := st.episode + 1
       , episode_return := 0 + res.2.1
       , epsilon := epsilon_for_step step
       , episode_start_step := step
       , next_obs := res.1
       , rnd := st.rnd + 1
       , smp := st.smp + (if rand < epsilon_for_step step then 1 else 0)
       , epsTrace := st.epsTrace ++ [(step, step, epsilon_for_step step)] }) := by
  simp [trainExpIter, hd]

/-- Unfolding of one `train` iteration in the middle of an episode:
`epsilon` and `episode_start_step` are untouched. -/
theorem trainExpIter_running_eq {S : Type} (env : Env S) (model : S → List ℚ)
    (rands : ℕ → ℚ) (step : ℕ) (st : TrainSt S) (hd : st.done = false) :
    trainExpIter env model rands step st =
      (let rand := rands st.rnd
       let action := epsilon_greedy_action env.n_actions model st.next_obs
         st.epsilon rand (env.sampleStream st.smp)
       let res := env.step st.next_obs action
       { done := res.2.2
       , episode := st.episode
       , episode_return := st.episode_return + res.2.1
       , epsilon := st.epsilon
       , episode_start_step := st.episode_start_step
       , next_obs := res.1
       , rnd := st.rnd + 1
       , smp := st.smp + (if rand < st.epsilon then 1 else 0)
       , epsTrace := st.epsTrace ++ [(step, st.episode_start_step, st.epsilon)] }) := by
  simp [trainExpIter, hd]

/-- Invariant of the exploration slice: whenever the loop is inside an
episode, the current `epsilon` equals `epsilon_for_step` of the step at
which that episode began, and every recorded action selection used the
epsilon computed at its episode's start step. -/
theorem trainExp_eps_inv {S : Type} (env : Env S) (model : S → List ℚ)
    (rands : ℕ → ℚ) :
    ∀ n : ℕ,
      ((trainExpSteps env model rands n).done = false →
        (trainExpSteps env model rands n).epsilon
          = epsilon_for_step (trainExpSteps env model rands n).episode_start_step) ∧
      ∀ entry ∈ (trainExpSteps env model rands n).epsTrace,
        entry.2.2 = epsilon_for_step entry.2.1 := by
  intro n
  induction n with
  | zero =>
      refine ⟨fun h => ?_, fun entry hmem => ?_⟩
      · simp [trainExpSteps, trainExpInit] at h
      · simp [trainExpSteps, trainExpInit] at hmem
  | succ m ih =>
    obtain ⟨ihE, ihT⟩ := ih
    by_cases hd : (trainExpSteps env model rands m).done = true
    · have he := trainExpIter_done_eq env model rands (m + 1) _ hd
      refine ⟨fun _ => ?_, fun entry hmem => ?_⟩
      · rw [trainExpSteps, he]
      · rw [trainExpSteps, he] at hmem
        simp only [List.mem_append, List.mem_singleton] at hmem
        rcases hmem with h | h
        · exact ihT entry h
        · subst h
          rfl
    · have hdf : (trainExpSteps env model rands m).done = false :=
        Bool.not_eq_true _ ▸ (by simpa using hd)
      have he := trainExpIter_running_eq env model rands (m + 1) _ hdf
      have heq := ihE hdf
      refine ⟨fun _ => ?_, fun entry hmem => ?_⟩
      · rw [trainExpSteps, he]
        simpa using heq
      · rw [trainExpSteps, he] at hmem
        simp only [List.mem_append, List.mem_singleton] at hmem
        rcases hmem with h | h
        · exact ihT entry h
        · subst h
          simpa using heq

/-- Concrete run of the exploration slice: scripted environment with
episode length `5` (so one episode spans all three steps), three steps
processed; every action selection used `epsilon_for_step 1`, computed
once when the episode began at step `1`. -/
theorem trainExp_concrete_trace :
    (trainExpSteps (scriptedEnv 0 5) (fun _ => [0]) (fun _ => 2) 3).epsTrace
      = [(1, 1, epsilon_for_step 1), (2, 1, epsilon_for_step 1),
         (3, 1, epsilon_for_step 1)] := by
  have hlt : ¬ ((2 : ℚ) < epsilon_for_step 1) := by
    norm_num [epsilon_for_step, EPSILON_FINAL, EPSILON_START, EPSILON_STEPS]
  have e1 : trainExpSteps (scriptedEnv 0 5) (fun _ => [0]) (fun _ => 2) 1 =
      { done := false, episode := 1, episode_return := 0
      , epsilon := epsilon_for_step 1, episode_start_step := 1, next_obs := 1
      , rnd := 1, smp := 0, epsTrace := [(1, 1, epsilon_for_step 1)] } := by
    have h0 : trainExpSteps (scriptedEnv 0 5) (fun _ => [0]) (fun _ => 2) 1
        = trainExpIter (scriptedEnv 0 5) (fun _ => [0]) (fun _ => 2) 1
            (trainExpInit (scriptedEnv 0 5)) := rfl
    rw [h0, trainExpIter_done_eq _ _ _ _ _ rfl]
    simp [trainExpInit, scriptedEnv, hlt]
  have e2 : trainExpSteps (scriptedEnv 0 5) (fun _ => [0]) (fun _ => 2) 2 =
      { done := false, episode := 1, episode_return := 0
      , epsilon := epsilon_for_step 1, episode_start_step := 1, next_obs := 2
      , rnd := 2, smp := 0
      , epsTrace := [(1, 1, epsilon_for_step 1), (2, 1, epsilon_for_step 1)] } := by
    have h0 : trainExpSteps (scriptedEnv 0 5) (fun _ => [0]) (fun _ => 2) 2
        = trainExpIter (scriptedEnv 0 5) (fun _ => [0]) (fun _ => 2) 2
            (trainExpSteps (scriptedEnv 0 5) (fun _ => [0]) (fun _ => 2) 1) := rfl
    rw [h0, e1, trainExpIter_running_eq _ _ _ _ _ rfl]
    simp [scriptedEnv, hlt]
  have e3 : trainExpSteps (scriptedEnv 0 5) (fun _ => [0]) (fun _ => 2) 3
      = trainExpIter (scriptedEnv 0 5) (fun _ => [0]) (fun _ => 2) 3
          (trainExpSteps (scriptedEnv 0 5) (fun _ => [0]) (fun _ => 2) 2) := rfl
  rw [e3, e2, trainExpIter_running_eq _ _ _ _ _ rfl]
  simp [scriptedEnv, hlt]

/-- Claim C7: in `train`, epsilon is recomputed exactly at episode
boundaries — every action selection recorded at step `s` of an episode
that began at step `s0` uses `epsilon_for_step s0`; on a concrete
three-step episode beginning at step `1`, all three selections use
`epsilon_for_step 1`, which differs from `epsilon_for_step 2` and
`epsilon_for_step 3` (so epsilon is NOT recomputed per step). -/
theorem C7_epsilon_fixed_per_episode :
    (∀ (S : Type) (env : Env S) (model : S → List ℚ) (rands : ℕ → ℚ) (n : ℕ),
      ∀ entry ∈ (trainExpSteps env model rands n).epsTrace,
        entry.2.2 = epsilon_for_step entry.2.1) ∧
    (trainExpSteps (scriptedEnv 0 5) (fun _ => [0]) (fun _ => 2) 3).epsTrace
      = [(1, 1, epsilon_for_step 1), (2, 1, epsilon_for_step 1),
         (3, 1, epsilon_for_step 1)] ∧
    epsilon_for_step 1 ≠ epsilon_for_step 2 ∧
    epsilon_for_step 1 ≠ epsilon_for_step 3 := by
  refine ⟨?_, trainExp_concrete_trace, ?_, ?_⟩
  · intro S env model rands n
    exact (trainExp_eps_inv env model rands n).2
  · norm_num [epsilon_for_step, EPSILON_FINAL, EPSILON_START, EPSILON_STEPS]
  · norm_num [epsilon_for_step, EPSILON_FINAL, EPSILON_START, EPSILON_STEPS]

/-- Witness for C7: the general conjunct applied to the selection
recorded at step `2` of the concrete run, whose episode began at step
`1`. -/
theorem C7_epsilon_fixed_per_episode_witness :
    ((2 : ℕ), (1 : ℕ), epsilon_for_step 1).2.2
      = epsilon_for_step ((2 : ℕ), (1 : ℕ), epsilon_for_step 1).2.1 :=
  C7_epsilon_fixed_per_episode.1 ℕ (scriptedEnv 0 5) (fun _ => [0]) (fun _ => 2) 3
    (2, 1, epsilon_for_step 1) (by rw [trainExp_concrete_trace]; simp)

end DQN
